import Mathlib

/-!
Verification development for the LynqX relay server.

The definitions below are a shallow embedding of the two source files
`rs.py` (the FastAPI SSE relay: rooms, send endpoint, typing endpoint,
SSE stream, file-progress tracker, websocket binary relay, idle reaper)
and `relay_server.py` (the line-oriented TCP relay).  Python dicts are
modelled as association lists with Python's insertion-order update
semantics; `asyncio.Queue` mailboxes are modelled as FIFO lists; the
nondeterministic id generator `uuid.uuid4().hex[:6]` is modelled by
passing the generated string as an explicit argument.
-/

namespace LynqX

/-- Dict lookup, mirroring Python `d[k]` / `k in d` (first matching key). -/
def dictGet {κ α : Type} [DecidableEq κ] : List (κ × α) → κ → Option α
  | [], _ => none
  | p :: l, k => if p.1 = k then some p.2 else dictGet l k

/-- Dict assignment `d[k] = v`: updates the entry in place when the key is
present (Python keeps the original insertion position), otherwise appends
a new entry at the end. -/
def dictSet {κ α : Type} [DecidableEq κ] (l : List (κ × α)) (k : κ) (v : α) :
    List (κ × α) :=
  if (dictGet l k).isSome then
    l.map (fun p => if p.1 = k then (k, v) else p)
  else l ++ [(k, v)]

/-- Dict removal `d.pop(k, None)` / `del d[k]`. -/
def dictPop {κ α : Type} [DecidableEq κ] (l : List (κ × α)) (k : κ) :
    List (κ × α) :=
  l.filter (fun p => ¬ p.1 = k)

theorem dictGet_cons {κ α : Type} [DecidableEq κ] (p : κ × α) (l : List (κ × α)) (k : κ) :
    dictGet (p :: l) k = if p.1 = k then some p.2 else dictGet l k := rfl

theorem dictGet_append_of_none {κ α : Type} [DecidableEq κ] {l₁ : List (κ × α)} {k : κ}
    (l₂ : List (κ × α)) (h : dictGet l₁ k = none) :
    dictGet (l₁ ++ l₂) k = dictGet l₂ k := by
  induction l₁ with
  | nil => rfl
  | cons p l ih =>
    rw [dictGet_cons] at h
    by_cases hp : p.1 = k
    · simp [hp] at h
    · rw [List.cons_append, dictGet_cons, if_neg hp]
      exact ih (by simpa [hp] using h)

theorem dictGet_mapSet_self {κ α : Type} [DecidableEq κ] {l : List (κ × α)} {k : κ} (v : α)
    (h : (dictGet l k).isSome) :
    dictGet (l.map (fun p => if p.1 = k then (k, v) else p)) k = some v := by
  induction l with
  | nil => simp [dictGet] at h
  | cons p l ih =>
    by_cases hp : p.1 = k
    · simp only [List.map_cons, if_pos hp]
      rw [dictGet_cons]
      simp
    · simp only [List.map_cons, if_neg hp]
      rw [dictGet_cons, if_neg hp]
      rw [dictGet_cons, if_neg hp] at h
      exact ih h

theorem dictGet_mapSet_ne {κ α : Type} [DecidableEq κ] {l : List (κ × α)} {k k' : κ} (v : α)
    (h : ¬ k' = k) :
    dictGet (l.map (fun p => if p.1 = k then (k, v) else p)) k' = dictGet l k' := by
  induction l with
  | nil => rfl
  | cons p l ih =>
    by_cases hp : p.1 = k
    · simp only [List.map_cons, if_pos hp]
      rw [dictGet_cons, dictGet_cons]
      have hk : ¬ (k = k') := fun hh => h hh.symm
      have hp' : ¬ (p.1 = k') := fun hh => h (by rw [← hh, hp])
      simp only [if_neg hk, if_neg hp']
      exact ih
    · simp only [List.map_cons, if_neg hp]
      rw [dictGet_cons, dictGet_cons]
      by_cases hq : p.1 = k'
      · simp [hq]
      · simp only [if_neg hq]
        exact ih

@[simp]
theorem dictGet_dictSet_self {κ α : Type} [DecidableEq κ] (l : List (κ × α)) (k : κ) (v : α) :
    dictGet (dictSet l k v) k = some v := by
  unfold dictSet
  by_cases hs : (dictGet l k).isSome
  · rw [if_pos hs]
    exact dictGet_mapSet_self v hs
  · rw [if_neg hs]
    rw [Option.not_isSome_iff_eq_none] at hs
    rw [dictGet_append_of_none _ hs, dictGet_cons]
    simp

theorem dictGet_append_single_ne {κ α : Type} [DecidableEq κ] {k k' : κ} (l : List (κ × α))
    (v : α) (h : ¬ k' = k) : dictGet (l ++ [(k, v)]) k' = dictGet l k' := by
  induction l with
  | nil =>
    rw [List.nil_append, dictGet_cons]
    have hk : ¬ (k = k') := fun hh => h (Eq.symm hh)
    rw [if_neg hk]
  | cons p l ih =>
    rw [List.cons_append, dictGet_cons, dictGet_cons]
    by_cases hp : p.1 = k' <;> simp [hp, ih]

theorem dictGet_dictSet_ne {κ α : Type} [DecidableEq κ] (l : List (κ × α)) (k k' : κ) (v : α)
    (h : ¬ k' = k) : dictGet (dictSet l k v) k' = dictGet l k' := by
  unfold dictSet
  by_cases hs : (dictGet l k).isSome
  · rw [if_pos hs]
    exact dictGet_mapSet_ne v h
  · rw [if_neg hs]
    exact dictGet_append_single_ne l v h

theorem dictGet_dictPop_self {κ α : Type} [DecidableEq κ] (l : List (κ × α)) (k : κ) :
    dictGet (dictPop l k) k = none := by
  induction l with
  | nil => rfl
  | cons p l ih =>
    unfold dictPop
    by_cases hp : p.1 = k
    · simpa [List.filter, hp, dictPop] using ih
    · simp only [List.filter, hp]
      simpa [dictGet_cons, hp, dictPop] using ih

theorem mem_dictPop_key {κ α : Type} [DecidableEq κ] {l : List (κ × α)} {k : κ} {p : κ × α}
    (h : p ∈ dictPop l k) : ¬ p.1 = k := by
  unfold dictPop at h
  have := List.of_mem_filter h
  simpa using this

theorem dictGet_mem {κ α : Type} [DecidableEq κ] {l : List (κ × α)} {k : κ} {v : α}
    (h : dictGet l k = some v) : (k, v) ∈ l := by
  induction l with
  | nil => simp [dictGet] at h
  | cons p l ih =>
    rw [dictGet_cons] at h
    by_cases hp : p.1 = k
    · rw [if_pos hp] at h
      obtain ⟨k1, v1⟩ := p
      simp only at hp h
      injection h with h2
      subst hp
      subst h2
      exact List.mem_cons_self _ _
    · rw [if_neg hp] at h
      exact List.mem_cons_of_mem _ (ih h)

theorem mem_key_dictGet {κ α : Type} [DecidableEq κ] {l : List (κ × α)} {k : κ} {v : α}
    (hnd : (l.map Prod.fst).Nodup) (h : (k, v) ∈ l) : dictGet l k = some v := by
  induction l with
  | nil => simp at h
  | cons p l ih =>
    rw [List.map_cons, List.nodup_cons] at hnd
    rcases List.mem_cons.mp h with h1 | h2
    · rw [← h1, dictGet_cons]
      simp
    · have hne : ¬ p.1 = k := by
        intro he
        exact hnd.1 (he ▸ (List.mem_map.mpr ⟨(k, v), h2, rfl⟩))
      rw [dictGet_cons, if_neg hne]
      exact ih hnd.2 h2

/-! ### Base64 decoding

`send_message` computes `len(base64.b64decode(message.data))` for
`file-chunk` messages.  We model `base64.b64decode` on its documented
behaviour: characters outside the base64 alphabet and the padding
character are discarded, and the remaining characters must form
well-formed groups of four (with `=` padding closing the final group);
otherwise `binascii.Error` is raised, modelled as `none`.  The decoded
output is the list of byte values. -/

/-- Value of one character of the standard base64 alphabet. -/
def b64charVal (c : Char) : Option Nat :=
  if 'A' ≤ c ∧ c ≤ 'Z' then some (c.toNat - 'A'.toNat)
  else if 'a' ≤ c ∧ c ≤ 'z' then some (c.toNat - 'a'.toNat + 26)
  else if '0' ≤ c ∧ c ≤ '9' then some (c.toNat - '0'.toNat + 52)
  else if c = '+' then some 62
  else if c = '/' then some 63
  else none

/-- Decode a filtered base64 character stream four characters at a time. -/
def decodeQuads : List Char → Option (List Nat)
  | [] => some []
  | [a, b, '=', '='] =>
    match b64charVal a, b64charVal b with
    | some va, some vb => some [va * 4 + vb / 16]
    | _, _ => none
  | [a, b, c, '='] =>
    match b64charVal a, b64charVal b, b64charVal c with
    | some va, some vb, some vc => some [va * 4 + vb / 16, (vb % 16) * 16 + vc / 4]
    | _, _, _ => none
  | a :: b :: c :: d :: rest =>
    match b64charVal a, b64charVal b, b64charVal c, b64charVal d, decodeQuads rest with
    | some va, some vb, some vc, some vd, some tail =>
      some ([va * 4 + vb / 16, (vb % 16) * 16 + vc / 4, (vc % 4) * 64 + vd] ++ tail)
    | _, _, _, _, _ => none
  | _ => none

/-- Model of Python `base64.b64decode` (raising = `none`). -/
def b64decode (s : String) : Option (List Nat) :=
  decodeQuads (s.data.filter (fun c => (b64charVal c).isSome || c = '='))

/-! ### Data model of `rs.py`

`ROOMS: dict[str, dict]` maps a room id to
`{"clients": [...], "messages": [...], "file_progress": {...}}`.
A message is the pydantic `Message` model / the broadcast `msg_dict`;
the server-generated `client_count` dicts carry only `type` and `count`,
modelled by the same record with the unused fields at their `None`
defaults. -/

/-- MAX_HISTORY from rs.py. -/
def MAX_HISTORY : Nat := 50

/-- Wire message shape (the pydantic `Message` model plus the `count`
field carried by the server-generated `client_count` dicts). -/
structure Message where
  type : String
  data : String := ""
  filename : Option String := none
  size : Option Nat := none
  client_id : Option String := none
  nickname : Option String := none
  current_size : Option Nat := none
  count : Option Nat := none
deriving Repr, DecidableEq, Inhabited

/-- One entry of a room's `file_progress` dict. -/
structure FileProgress where
  current_size : Nat
  sender_id : Option String
deriving Repr, DecidableEq, Inhabited

/-- One room of `ROOMS`: subscriber mailboxes (the `asyncio.Queue`
contents of each client in `clients`), the bounded `messages` history,
and the `file_progress` tracker keyed by filename. -/
structure Room where
  clients : List (List Message)
  messages : List Message
  file_progress : List (Option String × FileProgress)
deriving Repr, DecidableEq, Inhabited

/-- The fresh room dict installed by `create_room` (and by the websocket
endpoint's `setdefault`). -/
def ROOM_EMPTY : Room := { clients := [], messages := [], file_progress := [] }

/-- Python slice `l[-n:]`: the last `n` elements (the whole list when
shorter). -/
def lastN {α : Type} (n : Nat) (l : List α) : List α := l.drop (l.length - n)

/-! ### Operations of `rs.py` -/

/-- File-transfer tracking section of `send_message` (rs.py lines
99-112): on `type == "file"` install a fresh progress entry; on
`"file-chunk"` decode the base64 payload (`binascii.Error` propagates as
`Except.error`), add its byte length to the entry when one exists and
annotate the outgoing `msg_dict` with the new running total; on
`"file-end"`/`"file-cancel"` drop the entry. -/
def trackFile (room : Room) (m : Message) : Except String (Room × Message) :=
  if m.type = "file" then
    .ok ({ room with
            file_progress :=
              dictSet room.file_progress m.filename ⟨0, m.client_id⟩ },
         m)
  else if m.type = "file-chunk" then
    match b64decode m.data with
    | none => .error "binascii.Error"
    | some chunk =>
      match dictGet room.file_progress m.filename with
      | some fp =>
        let total := fp.current_size + chunk.length
        .ok ({ room with
                file_progress :=
                  dictSet room.file_progress m.filename ⟨total, fp.sender_id⟩ },
             { m with current_size := some total })
      | none => .ok (room, m)
  else if m.type = "file-end" ∨ m.type = "file-cancel" then
    .ok ({ room with file_progress := dictPop room.file_progress m.filename }, m)
  else .ok (room, m)

/-- Storage and fan-out section of `send_message` (rs.py lines 114-119):
append `msg_dict` to history (except when `message.type == "typing"`),
trim to the last `MAX_HISTORY`, then put `msg_dict` into every
subscriber's queue. -/
def storeAndFanout (room : Room) (mtype : String) (msg_dict : Message) : Room :=
  let room :=
    if ¬ mtype = "typing" then
      { room with messages := lastN MAX_HISTORY (room.messages ++ [msg_dict]) }
    else room
  { room with clients := room.clients.map (fun q => q ++ [msg_dict]) }

/-- POST `/rooms/{room_id}/send` body (rs.py `send_message`), for a room
that exists: track file progress, store, fan out; returns the updated
room and the broadcast `msg_dict`. -/
def send_message (room : Room) (m : Message) : Except String (Room × Message) :=
  match trackFile room m with
  | .error e => .error e
  | .ok (room₁, msg_dict) => .ok (storeAndFanout room₁ m.type msg_dict, msg_dict)

/-- POST `/rooms/{room_id}/typing` body (rs.py `send_typing`), for a room
that exists: force `message.type = "typing"` and put the rewritten
message into every subscriber's queue; history and tracker untouched. -/
def send_typing (room : Room) (m : Message) : Room :=
  let m := { m with type := "typing" }
  { room with clients := room.clients.map (fun q => q ++ [m]) }

/-- GET `/rooms/{room_id}/get_file_progress` (rs.py): the in-flight
transfers whose `sender_id` equals the caller's `client_id`. -/
def get_file_progress (room : Room) (client_id : String) : List (Option String × Nat) :=
  (room.file_progress.filter (fun p => p.2.sender_id = some client_id)).map
    (fun p => (p.1, p.2.current_size))

/-- POST `/create` (rs.py `create_room`): `rid` is the generated
`uuid.uuid4().hex[:6]` string, passed here as an argument; the room dict
at `rid` is unconditionally set to a fresh empty room. -/
def create_room (rooms : List (String × Room)) (rid : String) :
    List (String × Room) × String :=
  (dictSet rooms rid ROOM_EMPTY, rid)

/-- Route guard plus body of `send_message`: 404 when the room id is
unknown, otherwise run the send body and write the mutated room back. -/
def sendRoute (rooms : List (String × Room)) (rid : String) (m : Message) :
    Except String (List (String × Room) × Message) :=
  match dictGet rooms rid with
  | none => .error "404 Room not found"
  | some room =>
    match send_message room m with
    | .error e => .error e
    | .ok (room₁, md) => .ok (dictSet rooms rid room₁, md)

/-- Route guard plus body of `send_typing`. -/
def typingRoute (rooms : List (String × Room)) (rid : String) (m : Message) :
    Except String (List (String × Room)) :=
  match dictGet rooms rid with
  | none => .error "404 Room not found"
  | some room => .ok (dictSet rooms rid (send_typing room m))

/-- Registration part of GET `/rooms/{room_id}/stream` (rs.py `stream`,
lines 131-142): 404 on an unknown room, otherwise append a fresh queue
and put a `client_count` dict into every queue (including the new one). -/
def streamRoute (rooms : List (String × Room)) (rid : String) :
    Except String (List (String × Room)) :=
  match dictGet rooms rid with
  | none => .error "404 Room not found"
  | some room =>
    let room := { room with clients := room.clients ++ [[]] }
    let cc : Message := { type := "client_count", count := some room.clients.length }
    .ok (dictSet rooms rid { room with clients := room.clients.map (fun q => q ++ [cc]) })

/-- Registry effect of the websocket endpoint (rs.py line 221):
`ROOMS.setdefault(room_id, {"clients": [], "messages": [], "file_progress": {}})`
inserts a fresh room when the id is unknown.  The subsequent
registration of the websocket connection itself is modelled separately
by `wsBroadcast` on the websocket client list. -/
def websocketAttachRegistry (rooms : List (String × Room)) (rid : String) :
    List (String × Room) :=
  match dictGet rooms rid with
  | some _ => rooms
  | none => rooms ++ [(rid, ROOM_EMPTY)]

/-- One sweep of the idle reaper `cleanup_rooms` (rs.py lines 200-206):
collect the ids of rooms whose client list is empty, then delete them.
The body runs without any `await` between the check and the deletes, so
one sweep is atomic with respect to joins. -/
def cleanup_rooms (rooms : List (String × Room)) : List (String × Room) :=
  let to_delete := (rooms.filter (fun p => p.2.clients = [])).map Prod.fst
  to_delete.foldl (fun rs rid => dictPop rs rid) rooms

/-! ### Fold runners over the send endpoint -/

/-- Apply one POST to `/rooms/{id}/send`; a raised `binascii.Error`
becomes a 500 response and leaves the room as it was. -/
def runSend (room : Room) (m : Message) : Room :=
  match send_message room m with
  | .ok (r, _) => r
  | .error _ => room

/-- Apply a sequence of sends. -/
def runSends (room : Room) (msgs : List Message) : Room :=
  msgs.foldl runSend room

/-- The broadcast `msg_dict` of one send (empty when the send raised). -/
def sentDict (room : Room) (m : Message) : List Message :=
  match send_message room m with
  | .ok (_, md) => [md]
  | .error _ => []

/-- The broadcast `msg_dict`s of a sequence of sends, in order. -/
def sentDicts : Room → List Message → List Message
  | _, [] => []
  | room, m :: ms => sentDict room m ++ sentDicts (runSend room m) ms

/-! ### The SSE stream generator as a small-step machine

`stream` (rs.py lines 131-169) registers a queue, then its
`event_generator` first iterates `ROOMS[room_id]["messages"]` — the
*live* list object — yielding each entry (with an `await` between
entries), and afterwards drains the queue, skipping messages whose
`client_id` equals the consuming client's id.

A concurrent `send_message` appends `msg_dict` to the current history
list object and then rebinds `ROOMS[room_id]["messages"]` to the fresh
slice copy `[-MAX_HISTORY:]`.  So the first publish after the generator
starts mutates the very list the history loop is iterating (the loop
will also yield it), while later publishes only touch the fresh copy.
`aliased` records whether the loop's list object is still the one bound
in the room dict. -/

/-- Phase of the `event_generator`: replaying history, or draining the
queue. -/
inductive GenPhase
  | replaying
  | streaming
deriving Repr, DecidableEq, Inhabited

/-- An interleaved action: a concurrent publish through the send
endpoint, or one step of the generator coroutine. -/
inductive GenAct
  | publish (m : Message)
  | step
deriving Repr, DecidableEq, Inhabited

/-- State of one subscriber's `event_generator` together with the parts
of the room it shares with concurrent publishes. -/
structure GenSt where
  iterList : List Message
  aliased : Bool
  roomMsgs : List Message
  pos : Nat
  queue : List Message
  phase : GenPhase
  received : List Message
deriving Repr, DecidableEq, Inhabited

/-- Generator start: the history loop grabs the current history list
(`h`); the queue already holds whatever was put between registration and
generator start (`q0`, e.g. the join's `client_count`). -/
def genInit (h q0 : List Message) : GenSt :=
  { iterList := h, aliased := true, roomMsgs := h, pos := 0, queue := q0,
    phase := .replaying, received := [] }

/-- One interleaving step.  `publish m` is the send endpoint: for a
non-typing message, append to the current history list object (the
iterated one while still aliased) and rebind the room's history to the
fresh trimmed copy; in all cases put `m` into the subscriber's queue.
`step` advances the generator: while replaying, yield the next entry of
the iterated list (or move to the streaming phase at its end); while
streaming, pop the queue head, skipping the consumer's own messages. -/
def genStep (cid : String) (s : GenSt) : GenAct → GenSt
  | .publish m =>
    if ¬ m.type = "typing" then
      if s.aliased then
        let l := s.iterList ++ [m]
        { s with iterList := l, roomMsgs := lastN MAX_HISTORY l, aliased := false,
                 queue := s.queue ++ [m] }
      else
        { s with roomMsgs := lastN MAX_HISTORY (s.roomMsgs ++ [m]),
                 queue := s.queue ++ [m] }
    else
      { s with queue := s.queue ++ [m] }
  | .step =>
    match s.phase with
    | .replaying =>
      if s.pos < s.iterList.length then
        { s with received := s.received ++ [s.iterList.getD s.pos default],
                 pos := s.pos + 1 }
      else
        { s with phase := .streaming }
    | .streaming =>
      match s.queue with
      | [] => s
      | m :: rest =>
        if m.client_id = some cid then
          { s with queue := rest }
        else
          { s with queue := rest, received := s.received ++ [m] }

/-- Run a sequence of interleaved actions. -/
def genRun (cid : String) (s : GenSt) (acts : List GenAct) : GenSt :=
  acts.foldl (genStep cid) s

/-! ### The websocket binary relay -/

/-- One websocket connection in a room's client list: its identity, its
liveness (`send_json` on a dead connection raises), and the payloads it
has received. -/
structure WsConn where
  id : String
  alive : Bool
  received : List (String × String)
deriving Repr, DecidableEq, Inhabited

/-- Latin-1 decoding of the raw chunk bytes (`data.decode("latin1")`,
and `""` for `b""`). -/
def latin1 (data : List Nat) : String :=
  String.mk (data.map Char.ofNat)

/-- The broadcast payload `{"meta": meta, "data": text}`; `meta` is the
event dict `{"event": ...}`, carried here as the event string. -/
def wsPayload (event : String) (data : List Nat) : String × String :=
  (event, latin1 data)

/-- `broadcast` (rs.py lines 236-247): iterate over a snapshot of the
client list; `send_json` to each; a raising (dead) connection is removed
from the live list and the loop continues with the remaining clients.
There is no sender exclusion. -/
def broadcast : List WsConn → (String × String) → List WsConn
  | [], _ => []
  | ws :: rest, p =>
    if ws.alive then
      { ws with received := ws.received ++ [p] } :: broadcast rest p
    else
      broadcast rest p

/-! ### The TCP relay `relay_server.py` -/

/-- Leave cleanup of `handle_client` (relay_server.py lines 46-55):
remove the writer from the room's participant list (in place), then pop
the room id from `ROOMS` only when the list is now empty.  Writers are
identified by opaque string ids. -/
def rsLeave (rooms : List (String × List String)) (rid : String) (w : String) :
    List (String × List String) :=
  match dictGet rooms rid with
  | none => rooms
  | some ps =>
    let ps₁ := if w ∈ ps then ps.erase w else ps
    if ps₁ = [] then dictPop rooms rid
    else dictSet rooms rid ps₁

/-! ### Basic facts about the send path -/

@[simp]
theorem storeAndFanout_file_progress (room : Room) (t : String) (md : Message) :
    (storeAndFanout room t md).file_progress = room.file_progress := by
  unfold storeAndFanout
  by_cases h : ¬ t = "typing" <;> simp [h]

@[simp]
theorem storeAndFanout_clients (room : Room) (t : String) (md : Message) :
    (storeAndFanout room t md).clients = room.clients.map (fun q => q ++ [md]) := by
  unfold storeAndFanout
  by_cases h : ¬ t = "typing" <;> simp [h]

theorem storeAndFanout_messages (room : Room) (t : String) (md : Message) :
    (storeAndFanout room t md).messages =
      if ¬ t = "typing" then lastN MAX_HISTORY (room.messages ++ [md])
      else room.messages := by
  unfold storeAndFanout
  by_cases h : ¬ t = "typing" <;> simp [h]

theorem trackFile_ok_type {room : Room} {m : Message} {r₁ : Room} {md : Message}
    (h : trackFile room m = .ok (r₁, md)) : md.type = m.type := by
  unfold trackFile at h
  split at h
  · injection h with h1
    injection h1 with h2 h3
    rw [← h3]
  · split at h
    · split at h
      · cases h
      · split at h
        · injection h with h1
          injection h1 with h2 h3
          rw [← h3]
        · injection h with h1
          injection h1 with h2 h3
          rw [← h3]
    · split at h
      · injection h with h1
        injection h1 with h2 h3
        rw [← h3]
      · injection h with h1
        injection h1 with h2 h3
        rw [← h3]

theorem trackFile_ok_messages {room : Room} {m : Message} {r₁ : Room} {md : Message}
    (h : trackFile room m = .ok (r₁, md)) : r₁.messages = room.messages := by
  unfold trackFile at h
  split at h
  · injection h with h1
    injection h1 with h2 h3
    rw [← h2]
  · split at h
    · split at h
      · cases h
      · split at h
        · injection h with h1
          injection h1 with h2 h3
          rw [← h2]
        · injection h with h1
          injection h1 with h2 h3
          rw [← h2]
    · split at h
      · injection h with h1
        injection h1 with h2 h3
        rw [← h2]
      · injection h with h1
        injection h1 with h2 h3
        rw [← h2]

theorem trackFile_ok_clients {room : Room} {m : Message} {r₁ : Room} {md : Message}
    (h : trackFile room m = .ok (r₁, md)) : r₁.clients = room.clients := by
  unfold trackFile at h
  split at h
  · injection h with h1
    injection h1 with h2 h3
    rw [← h2]
  · split at h
    · split at h
      · cases h
      · split at h
        · injection h with h1
          injection h1 with h2 h3
          rw [← h2]
        · injection h with h1
          injection h1 with h2 h3
          rw [← h2]
    · split at h
      · injection h with h1
        injection h1 with h2 h3
        rw [← h2]
      · injection h with h1
        injection h1 with h2 h3
        rw [← h2]

theorem send_message_ok_clients {room : Room} {m : Message} {r : Room} {md : Message}
    (h : send_message room m = .ok (r, md)) :
    r.clients = room.clients.map (fun q => q ++ [md]) := by
  unfold send_message at h
  split at h
  · cases h
  · rename_i room₁ msg_dict heq
    injection h with h1
    injection h1 with h2 h3
    rw [← h2, ← h3, storeAndFanout_clients, trackFile_ok_clients heq]

theorem send_message_ok_messages {room : Room} {m : Message} {r : Room} {md : Message}
    (h : send_message room m = .ok (r, md)) :
    r.messages =
      if ¬ m.type = "typing" then lastN MAX_HISTORY (room.messages ++ [md])
      else room.messages := by
  unfold send_message at h
  split at h
  · cases h
  · rename_i room₁ msg_dict heq
    injection h with h1
    injection h1 with h2 h3
    rw [← h2, ← h3, storeAndFanout_messages, trackFile_ok_messages heq]

theorem send_message_ok_type {room : Room} {m : Message} {r : Room} {md : Message}
    (h : send_message room m = .ok (r, md)) : md.type = m.type := by
  unfold send_message at h
  split at h
  · cases h
  · rename_i room₁ msg_dict heq
    injection h with h1
    injection h1 with h2 h3
    rw [← h3]
    exact trackFile_ok_type heq

/-! ### Claim C1: file-transfer running totals and query_in_flight -/

/-- Transfer-start message.  In `rs.py` the variant the spec calls
`file-start` is the message with `type == "file"` (the tracker entry is
installed on `message.type == "file"`, rs.py line 100). -/
def mFileStart (f cid : String) (sz : Nat) : Message :=
  { type := "file", filename := some f, size := some sz, client_id := some cid }

/-- A chunk message carrying base64 `d`. -/
def mFileChunk (f cid d : String) : Message :=
  { type := "file-chunk", data := d, filename := some f, client_id := some cid }

/-- Transfer-end message. -/
def mFileEnd (f cid : String) : Message :=
  { type := "file-end", filename := some f, client_id := some cid }

/-- C1: publishing file-start(f), file-chunk(f, b1), file-chunk(f, b2)
from one sender annotates the two chunk broadcasts with running totals
len(b1) and len(b1)+len(b2) (lengths of the base64-decoded chunk data),
and after file-end(f) a query_in_flight (`get_file_progress`) for that
sender no longer contains f. -/
theorem c1_file_transfer_invariant (room : Room) (f cid : String) (sz : Nat)
    (d1 d2 : String) (bs1 bs2 : List Nat)
    (h1 : b64decode d1 = some bs1) (h2 : b64decode d2 = some bs2) :
    ((sentDicts room
        [mFileStart f cid sz, mFileChunk f cid d1, mFileChunk f cid d2, mFileEnd f cid]).map
          Message.current_size
      = [none, some bs1.length, some (bs1.length + bs2.length), none]) ∧
    ((get_file_progress
        (runSends room
          [mFileStart f cid sz, mFileChunk f cid d1, mFileChunk f cid d2, mFileEnd f cid]) cid).all
        (fun q => ¬ q.1 = some f) = true) := by
  constructor
  · simp [sentDicts, sentDict, runSend, send_message, trackFile,
          mFileStart, mFileChunk, mFileEnd, h1, h2]
  · have hfp : (runSends room
        [mFileStart f cid sz, mFileChunk f cid d1, mFileChunk f cid d2,
         mFileEnd f cid]).file_progress
      = dictPop (runSend (runSend (runSend room (mFileStart f cid sz))
          (mFileChunk f cid d1)) (mFileChunk f cid d2)).file_progress (some f) := by
      show (runSend _ (mFileEnd f cid)).file_progress = _
      simp [runSend, send_message, trackFile, mFileEnd]
    rw [List.all_eq_true]
    intro q hq
    unfold get_file_progress at hq
    rw [hfp] at hq
    obtain ⟨p, hp, hpq⟩ := List.mem_map.mp hq
    have hkey := mem_dictPop_key (List.mem_filter.mp hp).1
    rw [← hpq]
    exact decide_eq_true hkey

/-- Witness for C1 at a concrete transfer: chunks "aGVsbG8=" (5 bytes)
and "d29ybGQh" (6 bytes). -/
theorem c1_file_transfer_invariant_witness :
    ((sentDicts ROOM_EMPTY
        [mFileStart "a.txt" "u1" 11, mFileChunk "a.txt" "u1" "aGVsbG8=",
         mFileChunk "a.txt" "u1" "d29ybGQh", mFileEnd "a.txt" "u1"]).map
          Message.current_size
      = [none, some 5, some (5 + 6), none]) ∧
    ((get_file_progress
        (runSends ROOM_EMPTY
          [mFileStart "a.txt" "u1" 11, mFileChunk "a.txt" "u1" "aGVsbG8=",
           mFileChunk "a.txt" "u1" "d29ybGQh", mFileEnd "a.txt" "u1"]) "u1").all
        (fun q => ¬ q.1 = some "a.txt") = true) :=
  c1_file_transfer_invariant ROOM_EMPTY "a.txt" "u1" 11 "aGVsbG8=" "d29ybGQh"
    [104, 101, 108, 108, 111] [119, 111, 114, 108, 100, 33] (by decide) (by decide)

/-! ### Claim C9: invalid base64 in a file-chunk aborts before mutation -/

/-- C9: a `file-chunk` whose `data` is not valid base64 raises
`binascii.Error` inside `send_message` before the tracker update, the
history append and the queue puts, so the whole send (and its route)
returns the error and produces no new state. -/
theorem c9_bad_base64_aborts (room : Room) (m : Message)
    (rooms : List (String × Room)) (rid : String)
    (h1 : m.type = "file-chunk") (h2 : b64decode m.data = none)
    (h3 : dictGet rooms rid = some room) :
    send_message room m = .error "binascii.Error" ∧
    sendRoute rooms rid m = .error "binascii.Error" := by
  have ht : trackFile room m = .error "binascii.Error" := by
    simp [trackFile, h1, h2]
  constructor
  · simp [send_message, ht]
  · simp [sendRoute, h3, send_message, ht]

/-- Witness for C9: data "A" filters to a single base64 character, which
`b64decode` rejects. -/
theorem c9_bad_base64_aborts_witness :
    send_message ROOM_EMPTY
        { type := "file-chunk", data := "A", filename := some "f" }
      = .error "binascii.Error" ∧
    sendRoute [("r1", ROOM_EMPTY)] "r1"
        { type := "file-chunk", data := "A", filename := some "f" }
      = .error "binascii.Error" :=
  c9_bad_base64_aborts ROOM_EMPTY
    { type := "file-chunk", data := "A", filename := some "f" }
    [("r1", ROOM_EMPTY)] "r1" rfl (by decide) (by decide)

/-! ### Claim C10: the typing endpoint rewrites the type and mutates
nothing but the mailboxes -/

/-- C10: `send_typing` forcibly rewrites the caller-supplied type to
"typing", puts the rewritten message into every subscriber's queue, and
leaves the history and the file-transfer table unchanged. -/
theorem c10_typing_rewrite_and_frame (room : Room) (m : Message) :
    send_typing room m =
      { room with
          clients := room.clients.map (fun q => q ++ [{ m with type := "typing" }]) } ∧
    ({ m with type := "typing" } : Message).type = "typing" ∧
    (send_typing room m).messages = room.messages ∧
    (send_typing room m).file_progress = room.file_progress :=
  ⟨rfl, rfl, rfl, rfl⟩

/-! ### Facts about the bounded history -/

theorem lastN_length_le {α : Type} (n : Nat) (l : List α) : (lastN n l).length ≤ n := by
  unfold lastN
  rw [List.length_drop]
  omega

theorem lastN_of_length_le {α : Type} {n : Nat} {l : List α} (h : l.length ≤ n) :
    lastN n l = l := by
  unfold lastN
  rw [Nat.sub_eq_zero_of_le h, List.drop_zero]

theorem lastN_subset {α : Type} (n : Nat) (l : List α) : lastN n l ⊆ l :=
  List.drop_subset _ _

theorem lastN_append_lastN {α : Type} (n : Nat) (xs ys : List α) :
    lastN n (lastN n xs ++ ys) = lastN n (xs ++ ys) := by
  unfold lastN
  have h1 : xs.drop (xs.length - n) ++ ys = (xs ++ ys).drop (xs.length - n) := by
    rw [List.drop_append_eq_append_drop,
        Nat.sub_eq_zero_of_le (Nat.sub_le xs.length n), List.drop_zero]
  rw [h1, List.drop_drop, List.length_drop, List.length_append]
  congr 1
  omega

/-! ### Claim C6: history bound, order and eligibility -/

/-- One send rewrites the history to the last `MAX_HISTORY` of the old
history plus the broadcast dict, unless the message is typing-typed (or
the send raised), in which case the history is untouched. -/
theorem runSend_messages (room : Room) (m : Message)
    (h : room.messages.length ≤ MAX_HISTORY) :
    (runSend room m).messages
      = lastN MAX_HISTORY
          (room.messages ++ (sentDict room m).filter (fun x => ¬ x.type = "typing")) := by
  unfold runSend sentDict
  cases hsm : send_message room m with
  | error e => simp [lastN_of_length_le h]
  | ok pr =>
    obtain ⟨r, md⟩ := pr
    have hty := send_message_ok_type hsm
    have hmsg := send_message_ok_messages hsm
    by_cases htyp : ¬ m.type = "typing"
    · rw [if_pos htyp] at hmsg
      simp only [hmsg, List.filter]
      rw [show (decide (¬ md.type = "typing")) = true from decide_eq_true (hty ▸ htyp)]
    · rw [if_neg htyp] at hmsg
      rw [Classical.not_not] at htyp
      simp only [hmsg, List.filter]
      rw [show (decide (¬ md.type = "typing")) = false from
            decide_eq_false (by rw [hty, htyp]; exact fun hc => hc rfl)]
      simp [lastN_of_length_le h]

theorem runSends_messages (msgs : List Message) (room : Room)
    (h : room.messages.length ≤ MAX_HISTORY) :
    (runSends room msgs).messages
      = lastN MAX_HISTORY
          (room.messages ++ (sentDicts room msgs).filter (fun x => ¬ x.type = "typing")) := by
  induction msgs generalizing room with
  | nil => simp [runSends, sentDicts, lastN_of_length_le h]
  | cons m ms ih =>
    have hstep := runSend_messages room m h
    have hlen : (runSend room m).messages.length ≤ MAX_HISTORY := by
      rw [hstep]
      exact lastN_length_le _ _
    have hrw : runSends room (m :: ms) = runSends (runSend room m) ms := rfl
    rw [hrw, ih (runSend room m) hlen, hstep, sentDicts, lastN_append_lastN,
        List.filter_append, List.append_assoc]

/-- C6 (amended): after any sequence of sends from a room whose history
respects the bound, the history equals the last `MAX_HISTORY` of the
initial history plus the non-typing broadcast dicts in chronological
order (so its length stays at most 50, the oldest entries are evicted
first, and typing messages never enter it).  The original claim's
further assertion that no presence-count message can appear is refuted
by `c6_presence_stored_counterexample`: the send endpoint performs no
check against the presence tag. -/
theorem c6_history_bound_amended (room : Room) (msgs : List Message)
    (h : room.messages.length ≤ MAX_HISTORY) :
    ((runSends room msgs).messages
       = lastN MAX_HISTORY
           (room.messages ++ (sentDicts room msgs).filter (fun x => ¬ x.type = "typing"))) ∧
    (runSends room msgs).messages.length ≤ MAX_HISTORY ∧
    (room.messages.all (fun x => ¬ x.type = "typing") = true →
      (runSends room msgs).messages.all (fun x => ¬ x.type = "typing") = true) := by
  have h1 := runSends_messages msgs room h
  refine ⟨h1, ?_, ?_⟩
  · by_cases hnil : msgs = []
    · subst hnil
      simpa [runSends] using h
    · rw [h1]
      exact lastN_length_le _ _
  · intro hall
    rw [List.all_eq_true] at hall ⊢
    intro x hx
    rw [h1] at hx
    have hx' := lastN_subset _ _ hx
    rcases List.mem_append.mp hx' with hl | hr
    · exact hall x hl
    · exact (List.mem_filter.mp hr).2

/-- Witness for C6 (amended) at a concrete run: one chat message and one
typing-typed send into an empty room. -/
theorem c6_history_bound_amended_witness :
    ((runSends ROOM_EMPTY
        [{ type := "chat", data := "hi" }, { type := "typing", data := "" }]).messages
       = lastN MAX_HISTORY
           ([] ++ (sentDicts ROOM_EMPTY
              [{ type := "chat", data := "hi" }, { type := "typing", data := "" }]).filter
                (fun x => ¬ x.type = "typing"))) ∧
    (runSends ROOM_EMPTY
        [{ type := "chat", data := "hi" }, { type := "typing", data := "" }]).messages.length
      ≤ MAX_HISTORY :=
  ⟨(c6_history_bound_amended ROOM_EMPTY _ (by decide)).1,
   (c6_history_bound_amended ROOM_EMPTY _ (by decide)).2.1⟩

/-- Counterexample to C6 as stated: the send endpoint stores a message
carrying the presence tag (`client_count` in rs.py) in the history like
any other non-typing message, so a published presence-count message does
appear in history. -/
theorem c6_presence_stored_counterexample :
    (runSend ROOM_EMPTY { type := "client_count", data := "1" }).messages
      = [{ type := "client_count", data := "1" }] ∧
    ({ type := "client_count", data := "1" } : Message).type = "client_count" := by
  constructor
  · rfl
  · rfl

/-! ### Claim C3: create_room and identifier collisions -/

/-- A live room with a subscriber and a message, used to exhibit the
collision behaviour of `create_room`. -/
def roomBusy : Room :=
  { clients := [[]], messages := [{ type := "chat", data := "x" }], file_progress := [] }

/-- Counterexample to C3 as stated: `create_room` performs no collision
check (`rid = uuid.uuid4().hex[:6]; ROOMS[rid] = {...}`), so when the
generated identifier equals a live room's identifier the call returns an
identifier that is *not* distinct from every live room's identifier and
replaces the existing room's state with a fresh empty room. -/
theorem c3_create_collision_counterexample :
    (create_room [("aaaaaa", roomBusy)] "aaaaaa").2 = "aaaaaa" ∧
    dictGet [("aaaaaa", roomBusy)] "aaaaaa" = some roomBusy ∧
    dictGet (create_room [("aaaaaa", roomBusy)] "aaaaaa").1 "aaaaaa" = some ROOM_EMPTY ∧
    ¬ (ROOM_EMPTY = roomBusy) := by
  refine ⟨rfl, rfl, ?_, by decide⟩
  rfl

/-- C3 (amended): `create_room` installs a fresh empty room under the
generated identifier and returns it; *when the generated identifier does
not collide with a live room* the returned identifier is distinct from
every live room's identifier and every existing room is left unchanged.
On a collision the existing room's state is replaced (no retry),
per `c3_create_collision_counterexample`. -/
theorem c3_create_fresh_amended (rooms : List (String × Room)) (rid : String)
    (h : dictGet rooms rid = none) :
    (create_room rooms rid).2 = rid ∧
    dictGet (create_room rooms rid).1 rid = some ROOM_EMPTY ∧
    (∀ k, ¬ k = rid → dictGet (create_room rooms rid).1 k = dictGet rooms k) ∧
    (∀ k r, dictGet rooms k = some r → ¬ k = rid) := by
  refine ⟨rfl, ?_, ?_, ?_⟩
  · unfold create_room
    exact dictGet_dictSet_self rooms rid ROOM_EMPTY
  · intro k hk
    unfold create_room
    exact dictGet_dictSet_ne rooms rid k ROOM_EMPTY hk
  · intro k r hkr hek
    rw [hek, h] at hkr
    cases hkr

/-- Witness for C3 (amended) on a registry holding one other room. -/
theorem c3_create_fresh_amended_witness :
    (create_room [("bbbbbb", ROOM_EMPTY)] "cccccc").2 = "cccccc" ∧
    dictGet (create_room [("bbbbbb", ROOM_EMPTY)] "cccccc").1 "cccccc" = some ROOM_EMPTY ∧
    dictGet (create_room [("bbbbbb", ROOM_EMPTY)] "cccccc").1 "bbbbbb"
      = dictGet [("bbbbbb", ROOM_EMPTY)] "bbbbbb" :=
  ⟨(c3_create_fresh_amended [("bbbbbb", ROOM_EMPTY)] "cccccc" (by decide)).1,
   (c3_create_fresh_amended [("bbbbbb", ROOM_EMPTY)] "cccccc" (by decide)).2.1,
   (c3_create_fresh_amended [("bbbbbb", ROOM_EMPTY)] "cccccc" (by decide)).2.2.1
     "bbbbbb" (by decide)⟩

/-! ### Claim C4: which operations insert rooms into the registry -/

/-- Counterexample to C4 as stated: attaching a websocket to an unknown
room id inserts a fresh room into the registry
(`ROOMS.setdefault(room_id, ...)`, rs.py line 221), with no create
request having run (the registry starts empty). -/
theorem c4_ws_inserts_room_counterexample :
    dictGet ([] : List (String × Room)) "zz9xq1" = none ∧
    dictGet (websocketAttachRegistry [] "zz9xq1") "zz9xq1" = some ROOM_EMPTY := by
  exact ⟨rfl, rfl⟩

/-- C4 (amended): the send, typing and stream routes reject an unknown
room id with 404 and never insert a room, and an existing room is left
in place by the websocket attach; but the websocket endpoint *does*
insert a fresh room for an unknown id via `setdefault`
(`c4_ws_inserts_room_counterexample`). -/
theorem c4_no_implicit_rooms_amended :
    (∀ (rooms : List (String × Room)) rid m, dictGet rooms rid = none →
      sendRoute rooms rid m = .error "404 Room not found") ∧
    (∀ (rooms : List (String × Room)) rid m, dictGet rooms rid = none →
      typingRoute rooms rid m = .error "404 Room not found") ∧
    (∀ (rooms : List (String × Room)) rid, dictGet rooms rid = none →
      streamRoute rooms rid = .error "404 Room not found") ∧
    (∀ (rooms : List (String × Room)) rid, dictGet rooms rid = none →
      websocketAttachRegistry rooms rid = rooms ++ [(rid, ROOM_EMPTY)]) ∧
    (∀ (rooms : List (String × Room)) rid r, dictGet rooms rid = some r →
      websocketAttachRegistry rooms rid = rooms) := by
  refine ⟨?_, ?_, ?_, ?_, ?_⟩
  · intro rooms rid m h
    simp [sendRoute, h]
  · intro rooms rid m h
    simp [typingRoute, h]
  · intro rooms rid h
    simp [streamRoute, h]
  · intro rooms rid h
    simp [websocketAttachRegistry, h]
  · intro rooms rid r h
    simp [websocketAttachRegistry, h]

/-- Witness for C4 (amended) on an empty registry and on a registry that
already holds the target room. -/
theorem c4_no_implicit_rooms_amended_witness :
    sendRoute ([] : List (String × Room)) "r9" { type := "chat", data := "hi" }
      = .error "404 Room not found" ∧
    typingRoute ([] : List (String × Room)) "r9" { type := "chat", data := "hi" }
      = .error "404 Room not found" ∧
    streamRoute ([] : List (String × Room)) "r9" = .error "404 Room not found" ∧
    websocketAttachRegistry ([] : List (String × Room)) "r9" = [] ++ [("r9", ROOM_EMPTY)] ∧
    websocketAttachRegistry [("r9", ROOM_EMPTY)] "r9" = [("r9", ROOM_EMPTY)] :=
  ⟨c4_no_implicit_rooms_amended.1 [] "r9" _ (by decide),
   c4_no_implicit_rooms_amended.2.1 [] "r9" _ (by decide),
   c4_no_implicit_rooms_amended.2.2.1 [] "r9" (by decide),
   c4_no_implicit_rooms_amended.2.2.2.1 [] "r9" (by decide),
   c4_no_implicit_rooms_amended.2.2.2.2 [("r9", ROOM_EMPTY)] "r9" ROOM_EMPTY (by decide)⟩

/-! ### Claim C7: partial delivery failure -/

/-- A room with three subscribers (three queue mailboxes) on the SSE
send path. -/
def room3 : Room := { clients := [[], [], []], messages := [], file_progress := [] }

/-- The chat message used in the C7 scenario. -/
def chatHi : Message := { type := "chat", data := "hi", client_id := some "u1" }

/-- Counterexample to C7 as stated: on the chat publish path
(`send_message`) mailboxes are `asyncio.Queue`s, which have no
closed/dead state and whose `put` cannot fail, and the loop has no
failure handling: whichever of the three subscribers' connections is
dead, the publish enqueues to all three mailboxes and removes no
subscriber from the room (the subscriber set still has all three
entries afterwards). -/
theorem c7_send_no_removal_counterexample :
    send_message room3 chatHi
      = .ok ({ clients := [[chatHi], [chatHi], [chatHi]], messages := [chatHi],
               file_progress := [] }, chatHi) ∧
    ([[chatHi], [chatHi], [chatHi]] : List (List Message)).length = 3 := by
  exact ⟨rfl, rfl⟩

/-- C7 (amended): per-subscriber failure isolation lives on the
websocket relay path: `broadcast` over three connections of which
exactly the middle one is dead delivers the payload to both live
connections, removes the dead one from the client list, and is not
aborted by the failure.  On the send path (chat messages) no removal
happens at publish time (`c7_send_no_removal_counterexample`); dead SSE
consumers are instead removed by their own stream handler on
disconnect. -/
theorem c7_ws_partial_failure_amended (a b c : WsConn) (p : String × String)
    (ha : a.alive = true) (hb : b.alive = false) (hc : c.alive = true) :
    broadcast [a, b, c] p
      = [{ a with received := a.received ++ [p] },
         { c with received := c.received ++ [p] }] := by
  simp [broadcast, ha, hb, hc]

/-- Witness for C7 (amended) on concrete connections. -/
theorem c7_ws_partial_failure_amended_witness :
    broadcast [⟨"w1", true, []⟩, ⟨"w2", false, []⟩, ⟨"w3", true, []⟩] ("file-chunk", "zz")
      = [⟨"w1", true, [("file-chunk", "zz")]⟩, ⟨"w3", true, [("file-chunk", "zz")]⟩] :=
  c7_ws_partial_failure_amended ⟨"w1", true, []⟩ ⟨"w2", false, []⟩ ⟨"w3", true, []⟩
    ("file-chunk", "zz") rfl rfl rfl

/-! ### Claim C5: self-echo suppression -/

/-- Counterexample to C5 as stated: on the binary relay path the
publisher's own websocket is in the room's client list
(`websocket_endpoint` appends it before relaying) and `broadcast` sends
to every client with no sender exclusion, so the sender's own mailbox
receives the sender's own published payload. -/
theorem c5_ws_self_echo_counterexample :
    broadcast [⟨"alice", true, []⟩, ⟨"bob", true, []⟩] ("file-chunk", "xyz")
      = [⟨"alice", true, [("file-chunk", "xyz")]⟩, ⟨"bob", true, [("file-chunk", "xyz")]⟩] := by
  rfl

/-- C5 (amended): on the send endpoint a published message is enqueued
to *every* subscriber's mailbox, the sender's included.  The only
self-echo suppression is applied by the consuming SSE generator while
draining its queue: a dequeued message whose `client_id` equals the
consuming client's id is dropped, so a *live* message is never echoed
back to its sender from the queue.  The history-replay loop applies no
such filter: while replaying, the generator emits the next history
entry whatever its `client_id`, so the sender's connection does emit
the sender's own messages that sit in the replayed history.  On the
websocket relay path there is no suppression at all
(`c5_ws_self_echo_counterexample`). -/
theorem c5_echo_amended :
    (∀ (room : Room) (m : Message) (r : Room) (md : Message),
      send_message room m = .ok (r, md) →
      r.clients = room.clients.map (fun q => q ++ [md])) ∧
    (∀ (cid : String) (s : GenSt) (m : Message) (rest : List Message),
      s.phase = .streaming → s.queue = m :: rest → m.client_id = some cid →
      (genStep cid s .step).received = s.received ∧ (genStep cid s .step).queue = rest) ∧
    (∀ (cid : String) (s : GenSt),
      s.phase = .replaying → s.pos < s.iterList.length →
      (genStep cid s .step).received
        = s.received ++ [s.iterList.getD s.pos default]) := by
  refine ⟨?_, ?_, ?_⟩
  · intro room m r md h
    exact send_message_ok_clients h
  · intro cid s m rest hph hq hcid
    constructor <;> simp [genStep, hph, hq, hcid]
  · intro cid s hph hlt
    simp [genStep, hph, hlt]

/-- Witness for C5 (amended): a concrete send delivers to both queues
(the sender's one included); a concrete streaming-phase step drops the
consumer's own message; and a concrete replaying-phase step emits a
history message even though its `client_id` *is* the consumer's own id
("u1"), exhibiting the replay loop's missing filter. -/
theorem c5_echo_amended_witness :
    ({ clients := [[chatHi], [chatHi]], messages := [chatHi], file_progress := [] } : Room).clients
      = ({ clients := [[], []], messages := [], file_progress := [] } : Room).clients.map
          (fun q => q ++ [chatHi]) ∧
    (genStep "u1"
        { iterList := [], aliased := false, roomMsgs := [], pos := 0,
          queue := [chatHi], phase := .streaming, received := [] } .step).received = [] ∧
    (genStep "u1"
        { iterList := [], aliased := false, roomMsgs := [], pos := 0,
          queue := [chatHi], phase := .streaming, received := [] } .step).queue = [] ∧
    (genStep "u1"
        { iterList := [chatHi], aliased := true, roomMsgs := [chatHi], pos := 0,
          queue := [], phase := .replaying, received := [] } .step).received = [chatHi] :=
  ⟨c5_echo_amended.1 { clients := [[], []], messages := [], file_progress := [] } chatHi
      { clients := [[chatHi], [chatHi]], messages := [chatHi], file_progress := [] } chatHi rfl,
   (c5_echo_amended.2.1 "u1"
      { iterList := [], aliased := false, roomMsgs := [], pos := 0,
        queue := [chatHi], phase := .streaming, received := [] } chatHi [] rfl rfl rfl).1,
   (c5_echo_amended.2.1 "u1"
      { iterList := [], aliased := false, roomMsgs := [], pos := 0,
        queue := [chatHi], phase := .streaming, received := [] } chatHi [] rfl rfl rfl).2,
   c5_echo_amended.2.2 "u1"
      { iterList := [chatHi], aliased := true, roomMsgs := [chatHi], pos := 0,
        queue := [], phase := .replaying, received := [] } rfl (by decide)⟩

/-! ### Claim C8: the idle reaper -/

theorem dictGet_dictPop_ne {κ α : Type} [DecidableEq κ] (l : List (κ × α)) (k k' : κ)
    (h : ¬ k' = k) : dictGet (dictPop l k) k' = dictGet l k' := by
  induction l with
  | nil => rfl
  | cons p l ih =>
    unfold dictPop at ih ⊢
    rw [List.filter_cons]
    simp only [decide_not] at ih
    by_cases hp : p.1 = k
    · have hp' : ¬ p.1 = k' := fun hh => h (by rw [← hh, hp])
      have hk : ¬ k = k' := fun hh => h (Eq.symm hh)
      simp [hp, hp', hk, dictGet_cons, ih]
    · by_cases hq : p.1 = k' <;> simp [hp, hq, h, dictGet_cons, ih]

theorem dictGet_foldlPop_of_none {κ α : Type} [DecidableEq κ] {rooms : List (κ × α)}
    {rid : κ} (ks : List κ) (h : dictGet rooms rid = none) :
    dictGet (ks.foldl (fun rs k => dictPop rs k) rooms) rid = none := by
  induction ks generalizing rooms with
  | nil => exact h
  | cons k ks ih =>
    rw [List.foldl_cons]
    refine ih ?_
    by_cases hk : rid = k
    · rw [hk]
      exact dictGet_dictPop_self _ _
    · rw [dictGet_dictPop_ne _ _ _ hk]
      exact h

theorem dictGet_foldlPop_not_mem {κ α : Type} [DecidableEq κ] {rooms : List (κ × α)}
    {rid : κ} {ks : List κ} (h : rid ∉ ks) :
    dictGet (ks.foldl (fun rs k => dictPop rs k) rooms) rid = dictGet rooms rid := by
  induction ks generalizing rooms with
  | nil => rfl
  | cons k ks ih =>
    rw [List.foldl_cons]
    have hne : ¬ rid = k := fun hh => h (hh ▸ List.mem_cons_self k ks)
    rw [ih (fun hm => h (List.mem_cons_of_mem k hm)), dictGet_dictPop_ne _ _ _ hne]

theorem dictGet_foldlPop_mem {κ α : Type} [DecidableEq κ] {rooms : List (κ × α)}
    {rid : κ} {ks : List κ} (h : rid ∈ ks) :
    dictGet (ks.foldl (fun rs k => dictPop rs k) rooms) rid = none := by
  induction ks generalizing rooms with
  | nil => cases h
  | cons k ks ih =>
    rw [List.foldl_cons]
    by_cases hk : rid ∈ ks
    · exact ih hk
    · have hrk : rid = k := by
        rcases List.mem_cons.mp h with h1 | h2
        · exact h1
        · exact absurd h2 hk
      refine dictGet_foldlPop_of_none ks ?_
      rw [hrk]
      exact dictGet_dictPop_self _ _

/-- C8: one reaper sweep (`cleanup_rooms`) deletes exactly the rooms
whose client list is empty at the sweep's check: a room that is
non-empty at the check — in particular one that gained a subscriber
before the check; the sweep body holds the event loop, so the check and
the deletes are atomic — survives the sweep unchanged, and a room that
is empty at the check is gone afterwards.  The TCP relay's leave cleanup
likewise pops a room only when its participant list has become empty
(its non-empty remainder stays registered), so neither deletion path
ever deletes a room whose subscriber set is non-empty. -/
theorem c8_reaper_deletes_only_empty :
    (∀ (rooms : List (String × Room)) (rid : String) (r : Room),
      (rooms.map Prod.fst).Nodup → dictGet rooms rid = some r → ¬ r.clients = [] →
      dictGet (cleanup_rooms rooms) rid = some r) ∧
    (∀ (rooms : List (String × Room)) (rid : String) (r : Room),
      dictGet rooms rid = some r → r.clients = [] →
      dictGet (cleanup_rooms rooms) rid = none) ∧
    (∀ (rooms : List (String × List String)) (rid : String) (ps : List String) (w : String),
      dictGet rooms rid = some ps → ¬ (if w ∈ ps then ps.erase w else ps) = [] →
      dictGet (rsLeave rooms rid w) rid = some (if w ∈ ps then ps.erase w else ps)) := by
  refine ⟨?_, ?_, ?_⟩
  · intro rooms rid r hnd hget hne
    have hnm : rid ∉ ((rooms.filter (fun p => p.2.clients = [])).map Prod.fst) := by
      intro hmem
      obtain ⟨p, hp, hp1⟩ := List.mem_map.mp hmem
      obtain ⟨hpm, hpe⟩ := List.mem_filter.mp hp
      obtain ⟨k, v⟩ := p
      simp only at hp1 hpe
      rw [hp1] at hpm
      have := mem_key_dictGet hnd hpm
      rw [hget] at this
      injection this with hv
      rw [hv] at hne
      exact hne (of_decide_eq_true hpe)
    simp only [cleanup_rooms]
    rw [dictGet_foldlPop_not_mem hnm]
    exact hget
  · intro rooms rid r hget hemp
    have hm : rid ∈ ((rooms.filter (fun p => p.2.clients = [])).map Prod.fst) := by
      refine List.mem_map.mpr ⟨(rid, r), ?_, rfl⟩
      refine List.mem_filter.mpr ⟨dictGet_mem hget, ?_⟩
      exact decide_eq_true hemp
    simp only [cleanup_rooms]
    exact dictGet_foldlPop_mem hm
  · intro rooms rid ps w hget hne
    unfold rsLeave
    rw [hget]
    simp only [if_neg hne]
    exact dictGet_dictSet_self _ _ _

/-- Witness for C8 on concrete registries: a room with one subscriber
survives the sweep, an empty room is deleted, and a leave that does not
empty a TCP room keeps it registered. -/
theorem c8_reaper_deletes_only_empty_witness :
    dictGet (cleanup_rooms [("r1", { clients := [[]], messages := [], file_progress := [] })]) "r1"
      = some { clients := [[]], messages := [], file_progress := [] } ∧
    dictGet (cleanup_rooms [("r2", ROOM_EMPTY)]) "r2" = none ∧
    dictGet (rsLeave [("t1", ["w1", "w2"])] "t1" "w1") "t1"
      = some (if "w1" ∈ ["w1", "w2"] then ["w1", "w2"].erase "w1" else ["w1", "w2"]) :=
  ⟨c8_reaper_deletes_only_empty.1 [("r1", { clients := [[]], messages := [], file_progress := [] })]
      "r1" { clients := [[]], messages := [], file_progress := [] } (by decide) rfl (by decide),
   c8_reaper_deletes_only_empty.2.1 [("r2", ROOM_EMPTY)] "r2" ROOM_EMPTY rfl rfl,
   c8_reaper_deletes_only_empty.2.2 [("t1", ["w1", "w2"])] "t1" ["w1", "w2"] "w1"
     rfl (by decide)⟩

/-! ### Claim C2: history replay before live messages -/

/-- Invariant of the generator machine relative to the history `h`
grabbed at generator start: the iterated list always extends `h`; the
replay cursor stays in range; while replaying, exactly the first `pos`
entries of the iterated list have been received; once streaming, the
full history `h` is an initial segment of everything received. -/
def GenInv (h : List Message) (s : GenSt) : Prop :=
  s.iterList.take h.length = h ∧
  s.pos ≤ s.iterList.length ∧
  (s.phase = .replaying → s.received = s.iterList.take s.pos) ∧
  (s.phase = .streaming → s.received.take h.length = h)

theorem genInv_init (h q0 : List Message) : GenInv h (genInit h q0) := by
  refine ⟨List.take_length h, Nat.zero_le _, fun _ => rfl, fun hc => ?_⟩
  simp [genInit] at hc

theorem take_of_take_eq {α : Type} {l : List α} {xs : List α}
    (hl : l.take xs.length = xs) : xs.length ≤ l.length := by
  have := congrArg List.length hl
  rw [List.length_take] at this
  omega

theorem genInv_step (cid : String) (h : List Message) (s : GenSt) (a : GenAct)
    (hI : GenInv h s) : GenInv h (genStep cid s a) := by
  obtain ⟨h1, h2, h3, h4⟩ := hI
  have hlen : h.length ≤ s.iterList.length := take_of_take_eq h1
  cases a with
  | publish m =>
    dsimp only [genStep]
    by_cases hty : ¬ m.type = "typing"
    · rw [if_pos hty]
      by_cases hal : s.aliased = true
      · rw [if_pos hal]
        refine ⟨?_, ?_, ?_, h4⟩
        · rw [List.take_append_of_le_length hlen]
          exact h1
        · rw [List.length_append]
          exact Nat.le_trans h2 (by omega)
        · intro hph
          rw [List.take_append_of_le_length h2]
          exact h3 hph
      · rw [if_neg hal]
        exact ⟨h1, h2, h3, h4⟩
    · rw [if_neg hty]
      exact ⟨h1, h2, h3, h4⟩
  | step =>
    dsimp only [genStep]
    cases hph : s.phase with
    | replaying =>
      dsimp only
      by_cases hlt : s.pos < s.iterList.length
      · rw [if_pos hlt]
        refine ⟨h1, hlt, ?_, ?_⟩
        · intro _
          rw [h3 hph, List.take_succ, List.getElem?_eq_getElem hlt,
              List.getD_eq_getElem?_getD, List.getElem?_eq_getElem hlt]
          rfl
        · intro hc
          simp at hc
      · rw [if_neg hlt]
        refine ⟨h1, h2, ?_, ?_⟩
        · intro hc
          simp at hc
        · intro _
          have hpos : s.pos = s.iterList.length := Nat.le_antisymm h2 (Nat.le_of_not_lt hlt)
          rw [h3 hph, hpos, List.take_length]
          exact h1
    | streaming =>
      dsimp only
      cases hq : s.queue with
      | nil =>
        exact ⟨h1, h2, fun hph' => h3 hph', fun _ => h4 hph⟩
      | cons m rest =>
        have hrecv : s.received.take h.length = h := h4 hph
        have hrlen : h.length ≤ s.received.length := take_of_take_eq hrecv
        dsimp only
        by_cases hcid : m.client_id = some cid
        · rw [if_pos hcid]
          refine ⟨h1, h2, ?_, fun _ => hrecv⟩
          intro hc
          simp at hc
        · rw [if_neg hcid]
          refine ⟨h1, h2, ?_, ?_⟩
          · intro hc
            simp at hc
          · intro _
            rw [List.take_append_of_le_length hrlen]
            exact hrecv

theorem genInv_run (cid : String) (h : List Message) (s : GenSt) (acts : List GenAct)
    (hI : GenInv h s) : GenInv h (genRun cid s acts) := by
  induction acts generalizing s with
  | nil => exact hI
  | cons a acts ih => exact ih _ (genInv_step cid h s a hI)

/-- C2 (amended): in every interleaving of generator steps with
concurrent publishes, once the generator has finished replaying (reached
the streaming phase), the full history present at generator start is an
initial segment, in original order, of everything the joiner has
received — no live message is interleaved before the end of the replay
and no history message is skipped.  The original claim's further
assertion that no message is delivered twice is refuted by
`c2_double_delivery_counterexample`: a message published while the
replay is in progress is appended to the very list the history loop is
iterating and to the queue, and is delivered on both paths. -/
theorem c2_history_replay_amended (cid : String) (h q0 : List Message)
    (acts : List GenAct)
    (hph : (genRun cid (genInit h q0) acts).phase = .streaming) :
    (genRun cid (genInit h q0) acts).received.take h.length = h :=
  (genInv_run cid h (genInit h q0) acts (genInv_init h q0)).2.2.2 hph

/-- Witness for C2 (amended): one history message, two generator steps. -/
theorem c2_history_replay_amended_witness :
    (genRun "me" (genInit [chatHi] []) [.step, .step]).phase = .streaming ∧
    (genRun "me" (genInit [chatHi] []) [.step, .step]).received.take 1 = [chatHi] :=
  ⟨by decide, c2_history_replay_amended "me" [chatHi] [] [.step, .step] (by decide)⟩

/-- A second chat message, published by "u2" while the joiner "me" is
replaying history. -/
def chatM2 : Message := { type := "chat", data := "m2", client_id := some "u2" }

/-- Counterexample to C2 as stated: with history `[chatHi]` at generator
start, a publish of `chatM2` lands while the replay loop is on the first
entry.  The publish appends to the list object the loop is iterating and
puts the message on the queue, so the joiner receives `chatM2` twice:
once from the history loop and once from the queue. -/
theorem c2_double_delivery_counterexample :
    (genRun "me" (genInit [chatHi] [])
        [.step, .publish chatM2, .step, .step, .step]).received
      = [chatHi, chatM2, chatM2] ∧
    ((genRun "me" (genInit [chatHi] [])
        [.step, .publish chatM2, .step, .step, .step]).received.count chatM2 = 2) := by
  constructor
  · rfl
  · rfl

end LynqX
